import Mathlib

/-
  Verification of the semantic-search repository's specification claims.

  Shallow embedding notes:
  - Python strings are modelled as `List Char`; lowercasing uses
    `Char.toLower` and stripping removes leading/trailing whitespace,
    matching Python's `str.lower` / `str.strip` on the ASCII texts the
    service handles.
  - Machine floats are modelled as exact rationals; the scores in the
    claims are exact decimal fractions.
  - Fallible collaborator calls (TensorFlow Hub, FAISS, scikit-learn,
    boto3) are modelled as oracle records returning `Except`/`Bool`;
    the control flow around them (try/except, in-place mutation order,
    best-effort loops) is translated from the source.
-/

namespace SemSearch

/-! ### Python string helpers -/

/-- Python `str.lower` on a character list. -/
def pyLower (s : List Char) : List Char := s.map Char.toLower

/-- Python `str.strip` (remove leading and trailing whitespace). -/
def pyStrip (s : List Char) : List Char :=
  ((s.dropWhile Char.isWhitespace).reverse.dropWhile Char.isWhitespace).reverse

/-- Python list indexing `l[i]` with an int index: non-negative indices are
direct, negative indices wrap from the end, out-of-range is an error. -/
def pyGet {α : Type} (l : List α) (i : ℤ) : Option α :=
  if 0 ≤ i then l.get? i.toNat
  else if 0 ≤ i + l.length then l.get? (i + l.length).toNat
  else none

/-! ### Model manager: `_save_models_locally` as a file-system trace (claim C8)

`ModelManager._save_models_locally` (src/models/model_manager.py lines
175-209 and the backend variant) writes each artifact with `open(path,'wb')`
/ `faiss.write_index` / `np.save` / `json.dump` directly at the canonical
path.  We record the file-system operations it performs. -/

inductive FsOp where
  | write (path : String)
  | renameOp (src dst : String)
  deriving DecidableEq, Repr

def tfidfModelPath : String := "./models/tfidf_model.pkl"
def faissIndexPath : String := "./models/faiss_index.bin"
def embeddingsPath : String := "./models/faiss_index.npy"
def metadataPath : String := "./models/metadata.json"

/-- The file operations performed by `_save_models_locally`, in program
order: four direct writes at the canonical artifact paths, no temporary
files and no renames. -/
def saveModelsLocallyOps : List FsOp :=
  [ FsOp.write tfidfModelPath
  , FsOp.write faissIndexPath
  , FsOp.write embeddingsPath
  , FsOp.write metadataPath ]

/-- Does this operation rename some temporary (distinct) path onto
`canonical`? -/
def renamesOnto (canonical : String) : FsOp → Bool
  | FsOp.renameOp src dst => src ≠ canonical && dst = canonical
  | FsOp.write _ => false

/-- A trace persists `canonical` atomically when it never writes the
canonical path directly and instead renames some other path onto it. -/
def atomicRenameFor (ops : List FsOp) (canonical : String) : Prop :=
  (∀ op ∈ ops, op ≠ FsOp.write canonical) ∧ ops.any (renamesOnto canonical) = true

instance (ops : List FsOp) (c : String) : Decidable (atomicRenameFor ops c) := by
  unfold atomicRenameFor; exact instDecidableAnd

/-! ### Model manager training state (claims C2, C4)

The manager's mutable fields that training and loading assign
(`use_model`, `embeddings`, `faiss_index`, `tfidf_vectorizer`), with
embeddings/index matrices as rational matrices and the fitted models as
opaque handles. -/

abbrev EmbMatrix := List (List ℚ)

/-- The object held by `self.tfidf_vectorizer`: the constructor
`TfidfVectorizer(...)` yields an unfitted vectorizer, and a successful
`.fit(texts)` turns that same object into a fitted model. -/
inductive TfidfModel where
  | unfitted
  | fitted (features : ℕ)
  deriving DecidableEq, Repr

structure MMgrState where
  useModel : Option ℕ
  embeddings : Option EmbMatrix
  faissIndex : Option EmbMatrix
  tfidfVectorizer : Option TfidfModel
  deriving DecidableEq, Repr

inductive TErr where
  | hubFail
  | embedFail
  | indexFail
  | fitFail
  | saveFail
  deriving DecidableEq, Repr

/-- Collaborator calls made by `initialize_models`, as fallible oracles. -/
structure TrainOracle where
  hubLoad : Except TErr ℕ
  embedTexts : ℕ → List (List Char) → Except TErr EmbMatrix
  buildIndex : EmbMatrix → Except TErr EmbMatrix
  fitTfidf : List (List Char) → Except TErr ℕ
  saveLocal : Except TErr Unit
  backupAvailable : Bool

/-- Resolution of step 1 of `initialize_models` (reuse the already-loaded
USE model or load it through TF Hub). -/
def resolveUseModel (o : TrainOracle) (s : MMgrState) : Except TErr ℕ :=
  match s.useModel with
  | some u => Except.ok u
  | none => o.hubLoad

/-- `initialize_models` (src/models/model_manager.py lines 118-173; the
backend variant lines 167-240 is structurally identical): sequentially
assigns `self.use_model`, `self.embeddings` (embedding generation) and
`self.faiss_index` (index build); then assigns `self.tfidf_vectorizer =
TfidfVectorizer(...)` — a constructor that cannot fail — and only
afterwards calls `.fit(texts)` on it, so a fit failure leaves the field
holding the new unfitted vectorizer.  Each assignment mutates the
manager in place; the surrounding try/except logs and re-raises, so an
error carries the partially mutated state. -/
def initializeModels (o : TrainOracle) (s : MMgrState) (texts : List (List Char)) :
    Except (TErr × MMgrState) MMgrState :=
  -- step 1: load USE model if absent
  match resolveUseModel o s with
  | .error e => .error (e, s)
  | .ok u =>
    let s1 := { s with useModel := some u }
    -- step 2: generate (and L2-normalize) embeddings
    match o.embedTexts u texts with
    | .error e => .error (e, s1)
    | .ok emb =>
      let s2 := { s1 with embeddings := some emb }
      -- step 3: build FAISS index from the embeddings
      match o.buildIndex emb with
      | .error e => .error (e, s2)
      | .ok idx =>
        let s3 := { s2 with faissIndex := some idx }
        -- step 4: self.tfidf_vectorizer = TfidfVectorizer(...), then fit it
        let s3t := { s3 with tfidfVectorizer := some TfidfModel.unfitted }
        match o.fitTfidf texts with
        | .error e => .error (e, s3t)
        | .ok tf =>
          let s4 := { s3t with tfidfVectorizer := some (TfidfModel.fitted tf) }
          -- step 5: save locally (failure re-raised)
          match o.saveLocal with
          | .error e => .error (e, s4)
          | .ok _ =>
            -- step 6: S3 backup is best-effort (backup_models never raises)
            .ok s4

/-! ### Model manager: local load (claim C4)

`_load_models_locally` (src/models/model_manager.py lines 85-116; backend
variant lines 127-165) loads the five pieces in order under the model
lock; any parse failure is caught and turns into `False`.  For this claim
the artifacts are modelled at row-count granularity: the loaded embeddings
matrix carries its row count, the FAISS index its vector count, the
metadata its recorded corpus size. -/

structure FaissArt where
  ntotal : ℕ
  deriving DecidableEq, Repr

structure EmbArt where
  rows : ℕ
  deriving DecidableEq, Repr

structure MetaArt where
  numTexts : ℕ
  deriving DecidableEq, Repr

inductive LErr where
  | parseFail
  deriving DecidableEq, Repr

/-- What the five load calls of `_load_models_locally` return. -/
structure LoadOracle where
  existLocally : Bool
  loadUse : Except LErr ℕ
  loadTfidfPickle : Except LErr ℕ
  readFaiss : Except LErr FaissArt
  loadNpy : Except LErr EmbArt
  loadMetaJson : Except LErr MetaArt

/-- The loader's view of the manager state (artifact fields at row-count
granularity plus the metadata dict). -/
structure MLoadState where
  useModel : Option ℕ
  tfidfVectorizer : Option ℕ
  faissIndex : Option FaissArt
  embeddings : Option EmbArt
  metadata : Option MetaArt
  deriving DecidableEq, Repr

/-- `_load_models_locally`: sequential in-place assignments inside a
try/except; returns `true` exactly when every file parses.  No row-count
or shape comparison is performed anywhere in the function. -/
def loadModelsLocally (o : LoadOracle) (s : MLoadState) : Bool × MLoadState :=
  match o.loadUse with
  | .error _ => (false, s)
  | .ok u =>
    let s1 := { s with useModel := some u }
    match o.loadTfidfPickle with
    | .error _ => (false, s1)
    | .ok tf =>
      let s2 := { s1 with tfidfVectorizer := some tf }
      match o.readFaiss with
      | .error _ => (false, s2)
      | .ok fi =>
        let s3 := { s2 with faissIndex := some fi }
        match o.loadNpy with
        | .error _ => (false, s3)
        | .ok em =>
          let s4 := { s3 with embeddings := some em }
          match o.loadMetaJson with
          | .error _ => (false, s4)
          | .ok md => (true, { s4 with metadata := some md })

/-- `load_models` (src/models/model_manager.py lines 52-69): if all four
required files exist locally, delegate to `_load_models_locally`,
otherwise report `False`. -/
def loadModels (o : LoadOracle) (s : MLoadState) : Bool × MLoadState :=
  if o.existLocally then loadModelsLocally o s else (false, s)

/-! ### S3 backup service (claims C3, C9)

src/services/s3_backup_service.py.  The remote store is a list of objects
(key, last-modified stamp, size) plus the single latest-pointer object at
key models/latest_backup.json, modelled separately since its fixed key
never matches the backups/metadata listing filter. -/

structure S3Obj where
  key : String
  modified : ℕ
  size : ℕ
  deriving DecidableEq, Repr

structure LatestPtr where
  latestBackup : String
  backupFiles : List (String × String)
  deriving DecidableEq, Repr

structure Remote where
  objs : List S3Obj
  latest : Option LatestPtr
  deriving DecidableEq, Repr

/-- Per-call outcomes of the boto3 operations used by the backup service. -/
structure BackupOracle where
  connected : Bool
  existsLocal : String → Bool
  uploadOk : String → Bool
  pointerOk : Bool
  deleteOk : String → Bool
  sizeOf : String → ℕ

def tfidfKey (ts : String) : String := "models/backups/tfidf_model_" ++ ts ++ ".pkl.gz"
def faissKey (ts : String) : String := "models/backups/faiss_index_" ++ ts ++ ".bin.gz"
def embKey (ts : String) : String := "models/backups/embeddings_" ++ ts ++ ".npy.gz"
def metaKey (ts : String) : String := "models/backups/metadata_" ++ ts ++ ".json"

/-- The manifest written by `_create_latest_pointer` for a timestamp. -/
def pointerFor (ts : String) : LatestPtr :=
  { latestBackup := ts
  , backupFiles :=
      [ ("tfidf", tfidfKey ts)
      , ("faiss", faissKey ts)
      , ("embeddings", embKey ts)
      , ("metadata", metaKey ts) ] }

/-- `put_object`: overwrite or create the object at `k`. -/
def putObj (r : Remote) (k : String) (now sz : ℕ) : Remote :=
  { r with objs := r.objs.filter (fun ob => ob.key ≠ k) ++ [⟨k, now, sz⟩] }

/-- `delete_object`: deleting a missing key succeeds silently. -/
def delObj (r : Remote) (k : String) : Remote :=
  { r with objs := r.objs.filter (fun ob => ob.key ≠ k) }

/-- Python `s.split(sep)` for a single-character separator, on char
lists.  Splitting never yields an empty result list. -/
def splitOnChar (sep : Char) : List Char → List (List Char)
  | [] => [[]]
  | c :: rest =>
    let r := splitOnChar sep rest
    if c = sep then [] :: r
    else (c :: r.headD []) :: r.tail

/-- Python `s.replace(pat, rep)` (replace every occurrence, scanning left
to right), written with explicit fuel so that it reduces by `decide`. -/
def replaceAllAux (pat rep : List Char) : ℕ → List Char → List Char
  | 0, l => l
  | _ + 1, [] => []
  | fuel + 1, c :: rest =>
    if pat ≠ [] ∧ pat <+: (c :: rest) then
      rep ++ replaceAllAux pat rep fuel ((c :: rest).drop pat.length)
    else
      c :: replaceAllAux pat rep fuel rest

def replaceAll (pat rep l : List Char) : List Char :=
  replaceAllAux pat rep l.length l

/-- Lexicographic comparison of char lists (the order S3 lists keys in). -/
def lexLeB : List Char → List Char → Bool
  | [], _ => true
  | _ :: _, [] => false
  | a :: as', b :: bs' =>
    if a = b then lexLeB as' bs' else decide (a < b)

def keyLe (a b : S3Obj) : Prop := lexLeB a.key.toList b.key.toList = true

instance : DecidableRel keyLe := fun a b => by unfold keyLe; infer_instance

/-- `list_objects_v2` with a key filter and `MaxKeys`: S3 returns the
first `maxKeys` matching keys in ascending key order. -/
def listObjectsV2 (r : Remote) (pre : String) (maxKeys : ℕ) : List S3Obj :=
  ((r.objs.filter (fun ob => decide (pre.toList <+: ob.key.toList))).insertionSort keyLe).take maxKeys

def modifiedDesc (a b : S3Obj) : Prop := b.modified ≤ a.modified

instance : DecidableRel modifiedDesc := fun a b => by unfold modifiedDesc; infer_instance

/-- `list_backups` (lines 240-267): list at most `limit` objects under the
models/backups/metadata_ filter, then sort by last-modified descending. -/
def listBackups (r : Remote) (limit : ℕ) : List S3Obj :=
  (listObjectsV2 r "models/backups/metadata_" limit).insertionSort modifiedDesc

/-- The timestamp string `_cleanup_old_backups` reconstructs from a
metadata key: `backup.key.split('_')[-1].replace('.json', '')`. -/
def extractTsFromKey (k : String) : String :=
  String.mk (replaceAll ".json".toList [] ((splitOnChar '_' k.toList).getLastD []))

/-- `_cleanup_old_backups` (lines 269-301): list up to 100 backups, keep
the `keepN` most recent, and best-effort delete the four artifact keys it
reconstructs for every older backup. -/
def cleanupOldBackups (o : BackupOracle) (keepN : ℕ) (r : Remote) : Remote :=
  let backups := listBackups r 100
  if backups.length ≤ keepN then r
  else
    (backups.drop keepN).foldl
      (fun acc b =>
        let ts := extractTsFromKey b.key
        [tfidfKey ts, faissKey ts, embKey ts, metaKey ts].foldl
          (fun a k => if o.deleteOk k then delObj a k else a) acc)
      r

/-- `backup_models` (lines 62-116): upload the four artifacts (each upload
helper catches its own failures, so a failed upload is skipped), then
unconditionally write the latest pointer (also best-effort), then run the
retention cleanup; returns `true` whenever a client exists. -/
def backupModels (o : BackupOracle) (r : Remote) (ts : String) (now keepN : ℕ)
    (tfidfPath faissPath embeddingsP metadataP : String) : Remote × Bool :=
  if ¬ o.connected then (r, false)
  else
    let files :=
      [ (tfidfPath, tfidfKey ts)
      , (faissPath, faissKey ts)
      , (embeddingsP, embKey ts)
      , (metadataP, metaKey ts) ]
    let r1 := files.foldl
      (fun acc lf =>
        if o.existsLocal lf.1 then
          if o.uploadOk lf.2 then putObj acc lf.2 now (o.sizeOf lf.1) else acc
        else acc)
      r
    let r2 := if o.pointerOk then { r1 with latest := some (pointerFor ts) } else r1
    (cleanupOldBackups o keepN r2, true)

/-! ### Search service (claims C1, C5, C6, C10)

src/services/search_service.py.  Listings are modelled with the fields the
service reads: id, title, sector (each possibly missing), and tags.  A
missing title or sector read through `listing.get(field, [])` in
autocomplete stringifies to "[]", which the model reproduces. -/

structure SListing where
  id : Option ℤ
  title : Option (List Char)
  sector : Option (List Char)
  tags : List (List Char)
  deriving DecidableEq, Repr

inductive PErr where
  | collaboratorFail
  | indexError
  | notFound
  deriving DecidableEq, Repr

/-! #### Autocomplete (claim C5) -/

inductive FieldT where
  | title
  | sector
  | tags
  deriving DecidableEq, Repr

structure Suggestion where
  text : List Char
  ftype : FieldT
  category : List Char
  deriving DecidableEq, Repr

/-- Python `str(listing.get("title", []))`: the title if present,
otherwise the string form "[]" of the default empty list. -/
def titleText (l : SListing) : List Char := l.title.getD ['[', ']']

def sectorText (l : SListing) : List Char := l.sector.getD ['[', ']']

/-- `listing.get("sector", "Other")`, used as the suggestion category. -/
def categoryOf (l : SListing) : List Char := l.sector.getD "Other".toList

/-- The items scanned for one listing, in field order title, sector, then
each tag (the tags field iterates its elements, the scalar fields are
wrapped in a singleton). -/
def listingItems (l : SListing) : List (List Char × FieldT) :=
  [(titleText l, FieldT.title), (sectorText l, FieldT.sector)] ++
    l.tags.map (fun t => (t, FieldT.tags))

/-- The inner field/item loop of `autocomplete`: append a suggestion for
every item whose lowercase form contains the query and was not seen yet. -/
def acItems (q cat : List Char) :
    List (List Char × FieldT) → List Suggestion → List (List Char) →
    List Suggestion × List (List Char)
  | [], acc, seen => (acc, seen)
  | (it, ft) :: rest, acc, seen =>
    let low := pyLower it
    if q <:+: low ∧ low ∉ seen then
      acItems q cat rest (acc ++ [⟨it, ft, cat⟩]) (low :: seen)
    else
      acItems q cat rest acc seen

/-- The outer listing loop of `autocomplete`: the early-exit check runs
only after a listing's items have all been scanned. -/
def acScan (q : List Char) (maxSuggestions : ℕ) :
    List SListing → List Suggestion → List (List Char) → List Suggestion
  | [], acc, _ => acc
  | l :: rest, acc, seen =>
    let step := acItems q (categoryOf l) (listingItems l) acc seen
    if maxSuggestions ≤ step.1.length then step.1
    else acScan q maxSuggestions rest step.1 step.2

/-- `autocomplete` (lines 125-155): lowercase then strip the query, return
nothing for an empty query, otherwise scan listings in corpus order. -/
def autocomplete (query : List Char) (maxSuggestions : ℕ) (listings : List SListing) :
    List Suggestion :=
  let q := pyStrip (pyLower query)
  if q = [] then []
  else acScan q maxSuggestions listings [] []

/-! #### Hybrid search (claims C1, C10) -/

/-- What the collaborators return inside `hybrid_search`: the query
embedding, the FAISS top-k answer (scores and indices, as parallel
lists), and the per-listing TF-IDF cosine scores. -/
structure HOracle where
  embedQuery : List Char → Except PErr ℕ
  faissSearch : ℕ → ℕ → Except PErr (List ℚ × List ℤ)
  kwCosine : List Char → Except PErr (List ℚ)

/-- First position `j` with `sidx[j] = i`: `np.where(semantic_indices[0] == idx)[0]`
restricted to its head. -/
def findPos (sidx : List ℤ) (i : ℕ) : Option ℕ :=
  sidx.findIdx? (fun x => x = (i : ℤ))

/-- Per-listing semantic score: the FAISS score at the listing's position
in the returned index list, or 0.0 for a listing absent from it.
`none` models the IndexError when the score row is shorter than the hit
position. -/
def semanticScoreAt (ssc : List ℚ) (sidx : List ℤ) (i : ℕ) : Option ℚ :=
  match findPos sidx i with
  | some j => ssc.get? j
  | none => some 0

/-- Step 3 of `hybrid_search`: the combined score of listing `i`. -/
def combinedAt (w : ℚ) (ssc : List ℚ) (sidx : List ℤ) (kws : List ℚ) (i : ℕ) :
    Option ℚ := do
  let sem ← semanticScoreAt ssc sidx i
  let kw ← kws.get? i
  pure (w * sem + (1 - w) * kw)

/-- All combined scores in corpus order (an out-of-range keyword access
is an IndexError). -/
def combinedScores (w : ℚ) (ssc : List ℚ) (sidx : List ℤ) (kws : List ℚ) (n : ℕ) :
    Except PErr (List ℚ) :=
  match (List.range n).mapM (combinedAt w ssc sidx kws) with
  | some cs => .ok cs
  | none => .error .indexError

/-- The order produced by `sorted(combined_scores.items(), key=score,
reverse=True)`: Python's sort is stable and the dict iterates indices in
insertion order 0..n-1, so the result is the unique ordering by
descending score with ties broken by the lower index. -/
def rankOrd (cs : List ℚ) (i j : ℕ) : Prop :=
  cs.getD j 0 < cs.getD i 0 ∨ (cs.getD i 0 = cs.getD j 0 ∧ i ≤ j)

instance (cs : List ℚ) : DecidableRel (rankOrd cs) := fun i j => by
  unfold rankOrd; infer_instance

instance (cs : List ℚ) : IsTotal ℕ (rankOrd cs) where
  total i j := by
    unfold rankOrd
    rcases lt_trichotomy (cs.getD i 0) (cs.getD j 0) with h | h | h
    · exact Or.inr (Or.inl h)
    · rcases Nat.le_total i j with hij | hij
      · exact Or.inl (Or.inr ⟨h, hij⟩)
      · exact Or.inr (Or.inr ⟨h.symm, hij⟩)
    · exact Or.inl (Or.inl h)

instance (cs : List ℚ) : IsTrans ℕ (rankOrd cs) where
  trans i j k hij hjk := by
    unfold rankOrd at *
    rcases hij with h₁ | ⟨e₁, l₁⟩
    · rcases hjk with h₂ | ⟨e₂, _⟩
      · exact Or.inl (h₂.trans h₁)
      · exact Or.inl (e₂ ▸ h₁)
    · rcases hjk with h₂ | ⟨e₂, l₂⟩
      · exact Or.inl (e₁ ▸ h₂)
      · exact Or.inr ⟨e₁.trans e₂, l₁.trans l₂⟩

/-- Step 4's ordering of the corpus indices. -/
def rankIndices (cs : List ℚ) (n : ℕ) : List ℕ :=
  (List.range n).insertionSort (rankOrd cs)

/-- A returned search result: a copy of the listing plus its scores. -/
structure HResult where
  listing : SListing
  similarityScore : ℚ
  semanticScore : ℚ
  keywordScore : ℚ
  deriving DecidableEq, Repr

/-- Building one result row for a ranked index (the semantic score access
`semantic_scores[0][np.where(...)[0][0]]` raises for an index missing
from the FAISS answer). -/
def buildResult (listings : List SListing) (ssc : List ℚ) (sidx : List ℤ)
    (kws cs : List ℚ) (i : ℕ) : Except PErr HResult :=
  match listings.get? i with
  | none => .error .indexError
  | some l =>
    match findPos sidx i with
    | none => .error .indexError
    | some j =>
      match ssc.get? j, kws.get? i with
      | some sem, some kw => .ok ⟨l, cs.getD i 0, sem, kw⟩
      | _, _ => .error .indexError

/-- The body of `hybrid_search` (lines 44-84), before the enclosing
try/except: embed the query, FAISS-search the whole corpus, compute
keyword cosines, combine, sort, and build the top `topN` result rows. -/
def hybridSearchCore (o : HOracle) (listings : List SListing) (query : List Char)
    (topN : ℕ) (w : ℚ) : Except PErr (List HResult) := do
  let qe ← o.embedQuery query
  let (ssc, sidx) ← o.faissSearch qe listings.length
  let kws ← o.kwCosine query
  let cs ← combinedScores w ssc sidx kws listings.length
  let order := rankIndices cs listings.length
  (order.take topN).mapM (buildResult listings ssc sidx kws cs)

/-- `hybrid_search` (lines 41-88): the whole body runs inside
try/except, and any exception is logged and replaced by the empty list. -/
def hybridSearch (o : HOracle) (listings : List SListing) (query : List Char)
    (topN : ℕ) (w : ℚ) : List HResult :=
  match hybridSearchCore o listings query topN w with
  | .ok rs => rs
  | .error _ => []

/-! #### Recommendations (claims C6, C10) -/

/-- The FAISS call of `get_recommendations`: search with the stored
embedding of row `idx`, asking for `k` candidates; returns parallel score
and index lists. -/
structure RecOracle where
  recSearch : ℕ → ℕ → Except PErr (List ℚ × List ℤ)

/-- A recommendation row: a copy of the candidate listing plus its score. -/
structure RecResult where
  listing : SListing
  similarityScore : ℚ
  deriving DecidableEq, Repr

/-- `next((i for i, l in enumerate(listings) if l.get("id") == listing_id), None)`. -/
def findIdxById (listings : List SListing) (listingId : ℤ) : Option ℕ :=
  listings.findIdx? (fun l => l.id = some listingId)

/-- The candidate loop of `get_recommendations`: skip the source row and
(under the sector filter) sector mismatches, collect until `topN` rows
exist; `pos` tracks the position used to read `sim_scores[0][pos]`. -/
def recLoop (listings : List SListing) (idx : ℕ) (base : SListing) (topN : ℕ)
    (sectorFilter : Bool) (scs : List ℚ) :
    ℕ → List ℤ → List RecResult → Except PErr (List RecResult)
  | _, [], acc => .ok acc
  | pos, c :: rest, acc =>
    if c = (idx : ℤ) then recLoop listings idx base topN sectorFilter scs (pos + 1) rest acc
    else
      match pyGet listings c with
      | none => .error .indexError
      | some cand =>
        if sectorFilter ∧ cand.sector ≠ base.sector then
          recLoop listings idx base topN sectorFilter scs (pos + 1) rest acc
        else
          match scs.get? pos with
          | none => .error .indexError
          | some sc =>
            let acc' := acc ++ [⟨cand, sc⟩]
            if topN ≤ acc'.length then .ok acc'
            else recLoop listings idx base topN sectorFilter scs (pos + 1) rest acc'

/-- The try-protected body of `get_recommendations` (lines 96-119). -/
def recCore (o : RecOracle) (listings : List SListing) (idx : ℕ) (topN : ℕ)
    (sectorFilter : Bool) : Except PErr (List RecResult) := do
  let (scs, ids) ← o.recSearch idx (topN + 10)
  match listings.get? idx with
  | none => .error .indexError
  | some base => recLoop listings idx base topN sectorFilter scs 0 ids []

/-- `get_recommendations` (lines 90-123): the id lookup happens before the
try block, so an unknown id raises ValueError to the caller; any failure
inside the body is swallowed into the empty list. -/
def getRecommendations (o : RecOracle) (listings : List SListing) (listingId : ℤ)
    (topN : ℕ) (sectorFilter : Bool) : Except PErr (List RecResult) :=
  match findIdxById listings listingId with
  | none => .error .notFound
  | some idx =>
    match recCore o listings idx topN sectorFilter with
    | .ok rs => .ok rs
    | .error _ => .ok []

/-! ### Data service (claim C7)

src/backend/src/services/data_service.py.  Listings are JSON dicts with
arbitrary values, modelled as association lists over a small JSON value
type.  Python semantics reproduced here: `str()` of None/bool/int/list,
`int()` coercion with try/except, dict `get`/`in`/assignment, and the
`in (None, "", 0)` membership test (which, by Python equality, also
matches `False`). -/

inductive JVal where
  | nul
  | b (bo : Bool)
  | i (z : ℤ)
  | s (str : List Char)
  | arr (elems : List JVal)
  deriving Repr

mutual
def jvalBEq : JVal → JVal → Bool
  | JVal.nul, JVal.nul => true
  | JVal.b x, JVal.b y => x == y
  | JVal.i x, JVal.i y => x == y
  | JVal.s x, JVal.s y => x == y
  | JVal.arr x, JVal.arr y => jvalListBEq x y
  | _, _ => false

def jvalListBEq : List JVal → List JVal → Bool
  | [], [] => true
  | a :: as', b :: bs' => jvalBEq a b && jvalListBEq as' bs'
  | _, _ => false
end

mutual
def jvalBEq_iff : ∀ a b : JVal, jvalBEq a b = true ↔ a = b
  | JVal.nul, b => by cases b <;> simp [jvalBEq]
  | JVal.b x, b => by cases b <;> simp [jvalBEq]
  | JVal.i x, b => by cases b <;> simp [jvalBEq]
  | JVal.s x, b => by cases b <;> simp [jvalBEq]
  | JVal.arr x, b => by
    cases b <;> simp [jvalBEq]
    exact jvalListBEq_iff x _

def jvalListBEq_iff : ∀ as bs : List JVal, jvalListBEq as bs = true ↔ as = bs
  | [], bs => by cases bs <;> simp [jvalListBEq]
  | a :: as', bs => by
    cases bs with
    | nil => simp [jvalListBEq]
    | cons b bs' =>
      simp only [jvalListBEq, Bool.and_eq_true, List.cons.injEq]
      exact and_congr (jvalBEq_iff a b) (jvalListBEq_iff as' bs')
end

instance : DecidableEq JVal := fun a b => decidable_of_iff _ (jvalBEq_iff a b)

abbrev JDict := List (String × JVal)

/-- `d.get(k)` (first binding wins; Python dicts have unique keys). -/
def dGet (d : JDict) (k : String) : Option JVal :=
  (d.find? (fun p => p.1 = k)).map (fun p => p.2)

/-- `d[k] = v`: replace the binding if present, else append it. -/
def dSet : JDict → String → JVal → JDict
  | [], k, v => [(k, v)]
  | (k', v') :: rest, k, v =>
    if k' = k then (k, v) :: rest else (k', v') :: dSet rest k v

/-- Decimal digits of a natural number, most significant first. -/
def natCharsAux : ℕ → ℕ → List Char → List Char
  | 0, _, acc => acc
  | fuel + 1, n, acc =>
    let d := Char.ofNat (48 + n % 10)
    if n < 10 then d :: acc else natCharsAux fuel (n / 10) (d :: acc)

def natChars (n : ℕ) : List Char := natCharsAux (n + 1) n []

def intChars : ℤ → List Char
  | Int.ofNat n => natChars n
  | Int.negSucc m => '-' :: natChars (m + 1)

mutual
/-- Python `repr` of a JSON value (quотes around nested strings). -/
def pyRepr : JVal → List Char
  | JVal.nul => "None".toList
  | JVal.b true => "True".toList
  | JVal.b false => "False".toList
  | JVal.i z => intChars z
  | JVal.s str => '\'' :: str ++ ['\'']
  | JVal.arr l => '[' :: pyReprList l ++ [']']

def pyReprList : List JVal → List Char
  | [] => []
  | [x] => pyRepr x
  | x :: xs => pyRepr x ++ ", ".toList ++ pyReprList xs
end

/-- Python `str()` of a JSON value: a string is returned as is, anything
else via its repr. -/
def pyStr : JVal → List Char
  | JVal.s str => str
  | v => pyRepr v

/-- Value of an unbroken decimal digit string. -/
def digitsValAux : List Char → ℕ → Option ℕ
  | [], acc => some acc
  | c :: rest, acc =>
    if '0' ≤ c ∧ c ≤ '9' then digitsValAux rest (acc * 10 + (c.toNat - 48)) else none

def digitsVal (l : List Char) : Option ℕ :=
  if l = [] then none else digitsValAux l 0

/-- Python `int(str)`: strip whitespace, optional sign, all digits. -/
def parseIntChars (l0 : List Char) : Option ℤ :=
  match pyStrip l0 with
  | '-' :: rest => (digitsVal rest).map (fun n => -(n : ℤ))
  | '+' :: rest => (digitsVal rest).map (fun n => (n : ℤ))
  | l => (digitsVal l).map (fun n => (n : ℤ))

/-- Python `int(x)` under the try/except of `_next_id`: ints pass
through, bools coerce, numeric strings parse, everything else fails. -/
def pyToInt : JVal → Option ℤ
  | JVal.i z => some z
  | JVal.b true => some 1
  | JVal.b false => some 0
  | JVal.s str => parseIntChars str
  | _ => none

/-- One step of the `_next_id` loop: fold the listing's coerced id into
the running maximum, skipping coercion failures. -/
def nextIdStep (m : ℤ) (d : JDict) : ℤ :=
  match pyToInt ((dGet d "id").getD (JVal.i 0)) with
  | some z => max m z
  | none => m

/-- `_next_id` (data_service.py lines 136-146): one more than the running
maximum, over `int(listing.get("id", 0))` with parse failures skipped and
a starting maximum of 0. -/
def nextId (ls : List JDict) : ℤ :=
  ls.foldl nextIdStep 0 + 1

/-- Python iteration `for x in v`: lists yield elements, strings yield
one-character strings, other values raise TypeError. -/
def jIter : JVal → Option (List JVal)
  | JVal.arr l => some l
  | JVal.s str => some (str.map (fun c => JVal.s [c]))
  | _ => none

/-- `_extract_metadata` (lines 237-253): distinct sectors, tags and
locations; fails (TypeError) when some tags value is not iterable. -/
def extractMetadata (ls : List JDict) :
    Option (Finset JVal × Finset JVal × Finset JVal) :=
  match ls.mapM (fun d => jIter ((dGet d "tags").getD (JVal.arr []))) with
  | none => none
  | some tagLists =>
    some
      ( (ls.map (fun d => (dGet d "sector").getD (JVal.s "Other".toList))).toFinset
      , tagLists.flatten.toFinset
      , (ls.map (fun d => (dGet d "location").getD (JVal.s "Unknown".toList))).toFinset )

/-- The data service state: in-memory listings, remembered file shape,
the persisted file payload, the content hash (md5 abstracted as the
hashed content itself), and the derived metadata sets. -/
structure DState where
  listings : List JDict
  wrappedFmt : Bool
  fileContents : Option (Bool × List JDict)
  dataHash : Option (Bool × List JDict)
  sectors : Finset JVal
  tagSet : Finset JVal
  locations : Finset JVal

/-- `_persist` (lines 116-134): write the payload in the remembered
shape, refresh the hash from the written file, then refresh metadata
(whose TypeError, if any, escapes after the write). -/
def persist (st : DState) : DState × Bool :=
  let payload := (st.wrappedFmt, st.listings)
  let st2 := { st with fileContents := some payload, dataHash := some payload }
  match extractMetadata st.listings with
  | some (se, ta, lo) => ({ st2 with sectors := se, tagSet := ta, locations := lo }, true)
  | none => (st2, false)

/-- The Python membership test `x in (None, "", 0)` (Python equality
makes `False` equal to `0`). -/
def isUnsetId : JVal → Bool
  | JVal.nul => true
  | JVal.s [] => true
  | JVal.i 0 => true
  | JVal.b false => true
  | _ => false

def isArr : JVal → Bool
  | JVal.arr _ => true
  | _ => false

/-- The tail of `add_listing` after the id has been settled: validate the
tags type, append, persist. -/
def addListingFinish (st : DState) (nl : JDict) : DState × Except Unit JDict :=
  match dGet nl "tags" with
  | some t =>
    if t ≠ JVal.nul ∧ isArr t = false then (st, Except.error ())
    else
      let st' := { st with listings := st.listings ++ [nl] }
      let pr := persist st'
      (pr.1, if pr.2 then Except.ok nl else Except.error ())
  | none =>
    let st' := { st with listings := st.listings ++ [nl] }
    let pr := persist st'
    (pr.1, if pr.2 then Except.ok nl else Except.error ())

/-- `add_listing` (lines 148-180): require non-empty stripped title and
sector; treat a missing id, or one Python-equal to None, "" or 0, as
unset and auto-assign `_next_id()`; otherwise reject an id whose string
form is already taken; validate tags; append and persist.  The pair
carries the (possibly mutated) service state and the raised-or-returned
outcome. -/
def addListing (st : DState) (listing : JDict) : DState × Except Unit JDict :=
  let title := pyStrip (pyStr ((dGet listing "title").getD (JVal.s [])))
  let sector := pyStrip (pyStr ((dGet listing "sector").getD (JVal.s [])))
  if title = [] ∨ sector = [] then (st, Except.error ())
  else
    match dGet listing "id" with
    | none => addListingFinish st (dSet listing "id" (JVal.i (nextId st.listings)))
    | some v =>
      if isUnsetId v then
        addListingFinish st (dSet listing "id" (JVal.i (nextId st.listings)))
      else if pyStr v ∈ st.listings.map (fun d => pyStr ((dGet d "id").getD JVal.nul)) then
        (st, Except.error ())
      else addListingFinish st listing

/-! ### Concrete scenarios used by the claim theorems -/

def isWriteOp : FsOp → Bool
  | FsOp.write _ => true
  | FsOp.renameOp _ _ => false

/-- The five-listing corpus of the spec's concrete hybrid-search
scenario (ids 1 to 5). -/
def listings5 : List SListing :=
  [ ⟨some 1, some "t1".toList, some "Food".toList, []⟩
  , ⟨some 2, some "t2".toList, some "Food".toList, []⟩
  , ⟨some 3, some "t3".toList, some "Food".toList, []⟩
  , ⟨some 4, some "t4".toList, some "Food".toList, []⟩
  , ⟨some 5, some "t5".toList, some "Food".toList, []⟩ ]

def mockSem : List ℚ := [9/10, 1/10, 1/2, 0, 4/5]
def mockIdx : List ℤ := [0, 1, 2, 3, 4]
def mockKw : List ℚ := [2/10, 9/10, 4/10, 1/10, 3/10]

/-- Mock collaborators returning the scenario's semantic and keyword
score vectors. -/
def oracle5 : HOracle :=
  { embedQuery := fun _ => Except.ok 0
  , faissSearch := fun _ _ => Except.ok (mockSem, mockIdx)
  , kwCosine := fun _ => Except.ok mockKw }

/-- The combined scores the scenario predicts, in corpus order. -/
def combined5 : List ℚ := [62/100, 42/100, 46/100, 4/100, 60/100]

/-- The largest number of scanned autocomplete items a single listing
contributes (title and sector plus the tags). -/
def maxItemsLen (ls : List SListing) : ℕ :=
  ls.foldr (fun l m => max (listingItems l).length m) 0

/-- A listing whose title, sector and single tag all contain the letter
a, so one scan of it yields three suggestions. -/
def listingAAA : SListing :=
  ⟨some 1, some "aa".toList, some "ab".toList, ["ac".toList]⟩

/-- Two same-sector listings for the recommendation witness. -/
def recListings : List SListing :=
  [ ⟨some 10, some "a".toList, some "S".toList, []⟩
  , ⟨some 20, some "b".toList, some "S".toList, []⟩ ]

def recOracleOk : RecOracle :=
  { recSearch := fun _ _ => Except.ok ([1, 2], [0, 1]) }

/-- What a FAISS flat index actually returns for `recListings` when asked
for `top_n + 10 = 15` neighbours of row 1: only 2 vectors exist, so the
13 missing slots are padded with index -1 (documented FAISS behaviour
when `k` exceeds `ntotal`), here with a sentinel score of 3. -/
def recOraclePadded : RecOracle :=
  { recSearch := fun _ _ =>
      Except.ok
        ( [1, 2, 3, 3, 3, 3, 3, 3, 3, 3, 3, 3, 3, 3, 3]
        , [1, 0, -1, -1, -1, -1, -1, -1, -1, -1, -1, -1, -1, -1, -1] ) }

/-- An embedding collaborator that fails, for the error-swallowing
witness. -/
def oracleHFail : HOracle :=
  { embedQuery := fun _ => Except.error PErr.collaboratorFail
  , faissSearch := fun _ _ => Except.error PErr.collaboratorFail
  , kwCosine := fun _ => Except.error PErr.collaboratorFail }

def recOracleFail : RecOracle :=
  { recSearch := fun _ _ => Except.error PErr.collaboratorFail }

/-- Prior manager state holding a previously served bundle (its
vectorizer is a fitted model). -/
def mmPrior : MMgrState :=
  ⟨some 7, some [[1]], some [[1]], some (TfidfModel.fitted 3)⟩

/-- A training run whose keyword-model fit fails after embedding
generation and index build succeeded. -/
def trainFitFails : TrainOracle :=
  { hubLoad := Except.ok 0
  , embedTexts := fun _ _ => Except.ok [[2]]
  , buildIndex := fun m => Except.ok m
  , fitTfidf := fun _ => Except.error TErr.fitFail
  , saveLocal := Except.ok ()
  , backupAvailable := true }

/-- A second fit-failure run used to instantiate the amended statement. -/
def trainFitFails2 : TrainOracle :=
  { hubLoad := Except.ok 4
  , embedTexts := fun _ _ => Except.ok [[5]]
  , buildIndex := fun _ => Except.ok [[6]]
  , fitTfidf := fun _ => Except.error TErr.fitFail
  , saveLocal := Except.ok ()
  , backupAvailable := false }

def mmEmpty : MMgrState := ⟨none, none, none, none⟩

/-- Loader responses whose artifacts disagree in row count: 2 embedding
rows, 3 index vectors, metadata recording 5 texts. -/
def loadMismatch : LoadOracle :=
  { existLocally := true
  , loadUse := Except.ok 0
  , loadTfidfPickle := Except.ok 1
  , readFaiss := Except.ok ⟨3⟩
  , loadNpy := Except.ok ⟨2⟩
  , loadMetaJson := Except.ok ⟨5⟩ }

/-- A second mismatched loader for the amended statement's witness. -/
def loadMismatch2 : LoadOracle :=
  { existLocally := true
  , loadUse := Except.ok 9
  , loadTfidfPickle := Except.ok 8
  , readFaiss := Except.ok ⟨7⟩
  , loadNpy := Except.ok ⟨1⟩
  , loadMetaJson := Except.ok ⟨4⟩ }

def mlEmpty : MLoadState := ⟨none, none, none, none, none⟩

def tsOld : String := "20240101_000000"
def tsNew : String := "20240102_000000"

/-- A remote store holding one complete backup at `tsOld` whose manifest
the latest pointer references. -/
def remotePrior : Remote :=
  { objs :=
      [ ⟨tfidfKey tsOld, 1, 10⟩, ⟨faissKey tsOld, 1, 10⟩
      , ⟨embKey tsOld, 1, 10⟩, ⟨metaKey tsOld, 1, 10⟩ ]
  , latest := some (pointerFor tsOld) }

/-- A backup run in which the TF-IDF artifact upload fails but everything
else succeeds. -/
def backupTfidfFails : BackupOracle :=
  { connected := true
  , existsLocal := fun _ => true
  , uploadOk := fun k => !(k == tfidfKey tsNew)
  , pointerOk := true
  , deleteOk := fun _ => true
  , sizeOf := fun _ => 10 }

/-- A backup run in which every call succeeds. -/
def backupAllOk : BackupOracle :=
  { connected := true
  , existsLocal := fun _ => true
  , uploadOk := fun _ => true
  , pointerOk := true
  , deleteOk := fun _ => true
  , sizeOf := fun _ => 10 }

/-- Two consecutive fully successful backup runs with `keep_versions = 1`:
retention should leave only the newer one. -/
def retentionRun1 : Remote :=
  (backupModels backupAllOk ⟨[], none⟩ tsOld 1 1
    tfidfModelPath faissIndexPath embeddingsPath metadataPath).1

def retentionRun2 : Remote :=
  (backupModels backupAllOk retentionRun1 tsNew 2 1
    tfidfModelPath faissIndexPath embeddingsPath metadataPath).1

/-- A stored listing with explicit integer id 0. -/
def listing0 : JDict :=
  [("id", JVal.i 0), ("title", JVal.s "A".toList), ("sector", JVal.s "B".toList)]

def dstateWith0 : DState := ⟨[listing0], false, none, none, ∅, ∅, ∅⟩

/-- A new listing carrying the same explicit id 0. -/
def newListing0 : JDict :=
  [("id", JVal.i 0), ("title", JVal.s "C".toList), ("sector", JVal.s "D".toList)]

def dstateEmpty : DState := ⟨[], false, none, none, ∅, ∅, ∅⟩

/-- A fresh listing without an id, for the auto-assignment witness. -/
def newListingNoId : JDict :=
  [("title", JVal.s "E".toList), ("sector", JVal.s "F".toList)]

/-! ## Claim theorems -/

/-- C8 counterexample: `_save_models_locally` writes the TF-IDF artifact
directly at its canonical path and performs no rename at all, so the
claimed write-then-atomic-rename pattern is absent. -/
theorem c8_counterexample :
    FsOp.write tfidfModelPath ∈ saveModelsLocallyOps ∧
    ¬ atomicRenameFor saveModelsLocallyOps tfidfModelPath := by
  decide

/-- C8 (amended): training persistence writes each of the four artifacts
directly at its canonical path, in order TF-IDF, FAISS index, embeddings,
metadata, with no temporary file and no rename, so an interruption
mid-save can leave a half-written file visible under the canonical name. -/
theorem c8_save_is_direct_write :
    saveModelsLocallyOps =
      [ FsOp.write tfidfModelPath, FsOp.write faissIndexPath
      , FsOp.write embeddingsPath, FsOp.write metadataPath ] ∧
    saveModelsLocallyOps.all isWriteOp = true :=
  ⟨rfl, rfl⟩

/-- C2 counterexample: a training run in which embedding generation and
the index build succeed and the keyword-model fit fails raises as
claimed, but none of the three fields is preserved: embeddings and
faiss_index already hold the new corpus's values, and tfidf_vectorizer
holds the freshly constructed unfitted vectorizer assigned before the
failing fit call, not the previously fitted model. -/
theorem c2_counterexample :
    initializeModels trainFitFails mmPrior [] =
      Except.error (TErr.fitFail,
        { useModel := some 7, embeddings := some [[2]], faissIndex := some [[2]]
        , tfidfVectorizer := some TfidfModel.unfitted }) ∧
    (some [[2]] : Option EmbMatrix) ≠ mmPrior.embeddings ∧
    some TfidfModel.unfitted ≠ mmPrior.tfidfVectorizer := by
  refine ⟨rfl, ?_, ?_⟩ <;> simp [mmPrior]

/-- C2 (amended): when embedding generation and the index build succeed
and the keyword-model fit fails, `initialize_models` raises with every
field overwritten: embeddings and faiss_index hold the new values, and
tfidf_vectorizer holds the freshly constructed unfitted vectorizer (the
source assigns `self.tfidf_vectorizer = TfidfVectorizer(...)` before
calling `.fit`), so the previously fitted keyword model is lost as well;
there is no rollback or atomic swap protecting the served bundle. -/
theorem c2_fit_failure_overwrites_bundle
    (o : TrainOracle) (s : MMgrState) (texts : List (List Char))
    (u : ℕ) (emb idx : EmbMatrix) (e : TErr)
    (h1 : resolveUseModel o s = Except.ok u)
    (h2 : o.embedTexts u texts = Except.ok emb)
    (h3 : o.buildIndex emb = Except.ok idx)
    (h4 : o.fitTfidf texts = Except.error e) :
    initializeModels o s texts =
      Except.error (e,
        ⟨some u, some emb, some idx, some TfidfModel.unfitted⟩) := by
  simp [initializeModels, h1, h2, h3, h4]

/-- C2 witness: the amended statement applied to a concrete fit-failure
run over a concrete prior bundle. -/
theorem c2_fit_failure_overwrites_bundle_witness :
    initializeModels trainFitFails2 mmPrior [] =
      Except.error (TErr.fitFail,
        ⟨some 7, some [[5]], some [[6]], some TfidfModel.unfitted⟩) :=
  c2_fit_failure_overwrites_bundle trainFitFails2 mmPrior [] 7 [[5]] [[6]]
    TErr.fitFail rfl rfl rfl rfl

/-- C4 counterexample: with every artifact file present and parsing, a
bundle whose embeddings have 2 rows, whose index holds 3 vectors and
whose metadata records 5 texts is loaded successfully and served, not
rejected: `load_models` performs no row-count validation. -/
theorem c4_counterexample :
    loadModels loadMismatch mlEmpty =
      (true, ⟨some 0, some 1, some ⟨3⟩, some ⟨2⟩, some ⟨5⟩⟩) ∧
    (2 : ℕ) ≠ 3 ∧ (3 : ℕ) ≠ 5 := by
  exact ⟨rfl, by decide, by decide⟩

/-- C4 (amended): whenever all required local artifact files exist and
parse, `load_models` succeeds and installs the artifacts as loaded, with
no cross-artifact row-count validation of any kind; a bundle whose
artifacts disagree in row count is served rather than treated as absent. -/
theorem c4_load_never_validates
    (o : LoadOracle) (s : MLoadState) (u tf : ℕ)
    (fi : FaissArt) (em : EmbArt) (md : MetaArt)
    (hex : o.existLocally = true)
    (h1 : o.loadUse = Except.ok u)
    (h2 : o.loadTfidfPickle = Except.ok tf)
    (h3 : o.readFaiss = Except.ok fi)
    (h4 : o.loadNpy = Except.ok em)
    (h5 : o.loadMetaJson = Except.ok md) :
    loadModels o s =
      (true, ⟨some u, some tf, some fi, some em, some md⟩) := by
  simp [loadModels, loadModelsLocally, hex, h1, h2, h3, h4, h5]

/-- C4 witness: the amended statement applied to a loader whose artifacts
disagree in every row count. -/
theorem c4_load_never_validates_witness :
    loadModels loadMismatch2 mlEmpty =
      (true, ⟨some 9, some 8, some ⟨7⟩, some ⟨1⟩, some ⟨4⟩⟩) :=
  c4_load_never_validates loadMismatch2 mlEmpty 9 8 ⟨7⟩ ⟨1⟩ ⟨4⟩
    rfl rfl rfl rfl rfl rfl

/-- Folding any latest-preserving update over a list preserves latest. -/
theorem foldl_latest {β : Type} (f : Remote → β → Remote)
    (h : ∀ r b, (f r b).latest = r.latest) :
    ∀ (l : List β) (r : Remote), (l.foldl f r).latest = r.latest := by
  intro l
  induction l with
  | nil => intro r; rfl
  | cons b rest ih => intro r; rw [List.foldl_cons, ih, h]

/-- Retention pruning only deletes backup objects; it never touches the
latest pointer. -/
theorem cleanup_preserves_latest (o : BackupOracle) (keepN : ℕ) (r : Remote) :
    (cleanupOldBackups o keepN r).latest = r.latest := by
  unfold cleanupOldBackups
  dsimp only
  split
  · rfl
  · apply foldl_latest
    intro r' b
    apply foldl_latest
    intro r'' k
    by_cases hk : o.deleteOk k = true <;> simp [hk, delObj]

/-- C3 counterexample: starting from a store whose latest pointer
references the complete `tsOld` backup, a run at `tsNew` in which the
TF-IDF upload fails still overwrites the latest pointer with the `tsNew`
manifest, although the `tsNew` TF-IDF artifact is absent from the store:
an incomplete backup became latest. -/
theorem c3_counterexample :
    (backupModels backupTfidfFails remotePrior tsNew 2 5
        tfidfModelPath faissIndexPath embeddingsPath metadataPath).1.latest
      = some (pointerFor tsNew) ∧
    ((backupModels backupTfidfFails remotePrior tsNew 2 5
        tfidfModelPath faissIndexPath embeddingsPath metadataPath).1.objs.map
          (fun ob => ob.key)).contains (tfidfKey tsNew) = false ∧
    pointerFor tsNew ≠ pointerFor tsOld := by
  refine ⟨rfl, rfl, ?_⟩
  decide

/-- C3 (amended): `backup_models` overwrites the latest pointer with the
new timestamp's manifest unconditionally after the upload loop (whenever
the pointer write itself succeeds), regardless of how many per-artifact
uploads failed; per-artifact failures are logged and skipped without
aborting the other uploads, but they do not prevent the pointer update. -/
theorem c3_pointer_updated_unconditionally
    (o : BackupOracle) (r : Remote) (ts : String) (now keepN : ℕ)
    (p1 p2 p3 p4 : String)
    (hc : o.connected = true) (hp : o.pointerOk = true) :
    (backupModels o r ts now keepN p1 p2 p3 p4).1.latest = some (pointerFor ts) := by
  unfold backupModels
  rw [hc]
  simp [hp, cleanup_preserves_latest]

/-- C3 witness: the amended statement applied to the failing-upload run. -/
theorem c3_pointer_updated_unconditionally_witness :
    (backupModels backupTfidfFails remotePrior tsNew 2 1
        tfidfModelPath faissIndexPath embeddingsPath metadataPath).1.latest
      = some (pointerFor tsNew) :=
  c3_pointer_updated_unconditionally backupTfidfFails remotePrior tsNew 2 1
    tfidfModelPath faissIndexPath embeddingsPath metadataPath rfl rfl

/-- C9: the code contradicts the retention property.  After two fully
successful backup runs (timestamps 20240101_000000 and 20240102_000000)
with keep_versions = 1, both backup versions and all eight artifact
objects are still in the store, because `_cleanup_old_backups`
reconstructs artifact keys from `key.split('_')[-1]`, which keeps only
the time half of the timestamp ("000000"), so every delete targets a key
that never existed. -/
theorem c9_retention_deletes_nothing :
    (listBackups retentionRun2 100).length = 2 ∧
    retentionRun2.objs.map (fun ob => ob.key) =
      [ tfidfKey tsOld, faissKey tsOld, embKey tsOld, metaKey tsOld
      , tfidfKey tsNew, faissKey tsNew, embKey tsNew, metaKey tsNew ] ∧
    extractTsFromKey (metaKey tsOld) = "000000" ∧
    (retentionRun1.objs.map (fun ob => ob.key)).contains (tfidfKey "000000") = false := by
  refine ⟨?_, rfl, ?_, ?_⟩ <;> decide

/-- C1: hybrid search combines the scores of listing i as
semantic_weight * semantic + (1 - semantic_weight) * keyword, and ranks
the corpus indices so that the result is a permutation of all indices
sorted by descending combined score with ties broken by the lower
original index (Python's stable descending sort over the insertion-ordered
dict); on the spec's five-listing scenario with semantic scores
[0.9, 0.1, 0.5, 0.0, 0.8], keyword scores [0.2, 0.9, 0.4, 0.1, 0.3] and
weight 0.6 the combined scores are [0.62, 0.42, 0.46, 0.04, 0.60] and the
returned id order is [1, 5, 3, 2, 4]. -/
theorem c1_hybrid_combine_and_rank :
    (∀ (w : ℚ) (ssc : List ℚ) (sidx : List ℤ) (kws : List ℚ) (i : ℕ),
        combinedAt w ssc sidx kws i =
          (semanticScoreAt ssc sidx i).bind (fun sem =>
            (kws.get? i).bind (fun kw => some (w * sem + (1 - w) * kw)))) ∧
    (∀ (cs : List ℚ) (n : ℕ),
        (rankIndices cs n).Perm (List.range n) ∧
        List.Sorted (rankOrd cs) (rankIndices cs n)) ∧
    combinedScores (6/10) mockSem mockIdx mockKw 5 = Except.ok combined5 ∧
    (hybridSearch oracle5 listings5 "pizza".toList 5 (6/10)).map
        (fun r => r.listing.id) = [some 1, some 5, some 3, some 2, some 4] := by
  have hcs : combinedScores (6/10) mockSem mockIdx mockKw 5 = Except.ok combined5 := by
    show Except.ok _ = _
    norm_num [combinedScores, combinedAt, semanticScoreAt, findPos, mockSem, mockIdx,
      mockKw, combined5, List.range_succ]
  refine ⟨fun w ssc sidx kws i => rfl,
    fun cs n => ⟨List.perm_insertionSort _ _, List.sorted_insertionSort _ _⟩, hcs, ?_⟩
  have hord : rankIndices combined5 5 = [0, 4, 2, 1, 3] := by
    norm_num [rankIndices, List.insertionSort, List.orderedInsert, rankOrd, combined5,
      List.range_succ, List.getD]
  have hcore : hybridSearchCore oracle5 listings5 "pizza".toList 5 (6/10)
      = Except.bind (combinedScores (6/10) mockSem mockIdx mockKw 5)
          (fun cs => (List.take 5 (rankIndices cs 5)).mapM
            (buildResult listings5 mockSem mockIdx mockKw cs)) := rfl
  have h2 : hybridSearchCore oracle5 listings5 "pizza".toList 5 (6/10)
      = (List.take 5 (rankIndices combined5 5)).mapM
          (buildResult listings5 mockSem mockIdx mockKw combined5) := by
    rw [hcore, hcs]
    rfl
  simp only [hybridSearch]
  rw [h2, hord]
  rfl

/-- C10: any exception raised inside the body of hybrid_search, or inside
the body of get_recommendations once the listing-id lookup has succeeded,
is swallowed by the surrounding try/except and the empty list is returned
in its place, indistinguishable from a query with zero matches. -/
theorem c10_internal_errors_swallowed :
    (∀ (o : HOracle) (listings : List SListing) (q : List Char) (topN : ℕ)
        (w : ℚ) (e : PErr),
      hybridSearchCore o listings q topN w = Except.error e →
      hybridSearch o listings q topN w = []) ∧
    (∀ (o : RecOracle) (listings : List SListing) (lid : ℤ) (topN : ℕ)
        (sf : Bool) (idx : ℕ) (e : PErr),
      findIdxById listings lid = some idx →
      recCore o listings idx topN sf = Except.error e →
      getRecommendations o listings lid topN sf = Except.ok []) := by
  constructor
  · intro o listings q topN w e h
    simp [hybridSearch, h]
  · intro o listings lid topN sf idx e hfind hcore
    simp [getRecommendations, hfind, hcore]

/-- C10 witness: a failing embedding collaborator makes hybrid_search
return the empty list, and a failing FAISS call makes get_recommendations
of an existing id return the empty list. -/
theorem c10_internal_errors_swallowed_witness :
    hybridSearch oracleHFail recListings "q".toList 3 1 = [] ∧
    getRecommendations recOracleFail recListings 10 3 true = Except.ok [] :=
  ⟨c10_internal_errors_swallowed.1 oracleHFail recListings "q".toList 3 1
      PErr.collaboratorFail rfl,
   c10_internal_errors_swallowed.2 recOracleFail recListings 10 3 true 0
      PErr.collaboratorFail rfl rfl⟩

/-- The autocomplete item loop only appends suggestions whose lowered
text contains the query, and appends at most one per scanned item. -/
theorem acItems_append (q cat : List Char) :
    ∀ (items : List (List Char × FieldT)) (acc : List Suggestion)
      (seen : List (List Char)),
      ∃ t, (acItems q cat items acc seen).1 = acc ++ t ∧
        t.length ≤ items.length ∧
        ∀ s ∈ t, q <:+: pyLower s.text := by
  intro items
  induction items with
  | nil =>
    intro acc seen
    exact ⟨[], by simp [acItems], by simp, by simp⟩
  | cons p rest ih =>
    intro acc seen
    obtain ⟨it, ft⟩ := p
    simp only [acItems]
    by_cases h : q <:+: pyLower it ∧ pyLower it ∉ seen
    · rw [if_pos h]
      obtain ⟨t, ht, hlen, hmem⟩ := ih (acc ++ [⟨it, ft, cat⟩]) (pyLower it :: seen)
      refine ⟨⟨it, ft, cat⟩ :: t, ?_, ?_, ?_⟩
      · rw [ht]; simp
      · simp only [List.length_cons]
        omega
      · intro s hs
        rcases List.mem_cons.mp hs with rfl | hs'
        · exact h.1
        · exact hmem s hs'
    · rw [if_neg h]
      obtain ⟨t, ht, hlen, hmem⟩ := ih acc seen
      refine ⟨t, ht, ?_, hmem⟩
      simp only [List.length_cons]
      omega

/-- Every listing's item count is bounded by the corpus maximum. -/
theorem itemsLen_le_maxItemsLen :
    ∀ (ls : List SListing), ∀ l ∈ ls, (listingItems l).length ≤ maxItemsLen ls := by
  intro ls
  induction ls with
  | nil => simp
  | cons a rest ih =>
    intro l hl
    rcases List.mem_cons.mp hl with rfl | hl'
    · exact le_max_left _ _ |>.trans_eq rfl
    · exact (ih l hl').trans (le_max_right _ _)

/-- The autocomplete listing loop: entering with fewer than
max_suggestions collected, the final count stays below
max_suggestions + B where B bounds every remaining listing's item count,
and every collected suggestion matches the query. -/
theorem acScan_bound (q : List Char) (maxS B : ℕ) :
    ∀ (rest : List SListing) (acc : List Suggestion) (seen : List (List Char)),
      (∀ l ∈ rest, (listingItems l).length ≤ B) →
      (∀ s ∈ acc, q <:+: pyLower s.text) →
      acc.length < maxS →
      (acScan q maxS rest acc seen).length ≤ maxS + B ∧
        ∀ s ∈ acScan q maxS rest acc seen, q <:+: pyLower s.text := by
  intro rest
  induction rest with
  | nil =>
    intro acc seen _ hP hlt
    constructor
    · simp only [acScan]; omega
    · simpa [acScan] using hP
  | cons l rest' ih =>
    intro acc seen hB hP hlt
    simp only [acScan]
    obtain ⟨t, ht, hlen, hmem⟩ := acItems_append q (categoryOf l) (listingItems l) acc seen
    have htB : t.length ≤ B := hlen.trans (hB l (List.mem_cons_self l rest'))
    have hstepmem : ∀ s ∈ (acItems q (categoryOf l) (listingItems l) acc seen).1,
        q <:+: pyLower s.text := by
      intro s hs
      rw [ht] at hs
      rcases List.mem_append.mp hs with h | h
      · exact hP s h
      · exact hmem s h
    by_cases hbr : maxS ≤ (acItems q (categoryOf l) (listingItems l) acc seen).1.length
    · rw [if_pos hbr]
      constructor
      · have : (acItems q (categoryOf l) (listingItems l) acc seen).1.length
            = acc.length + t.length := by rw [ht]; simp
        omega
      · exact hstepmem
    · rw [if_neg hbr]
      exact ih _ _ (fun l' hl' => hB l' (List.mem_cons_of_mem l hl')) hstepmem
        (Nat.lt_of_not_le hbr)

/-- C5 counterexample: for the query " a " with max_suggestions 2 and a
single listing whose title, sector and tag all contain the letter a, the
call returns three suggestions (the early-exit check only runs after the
whole listing was scanned), and a returned suggestion whose lowercased
text does not contain the lowercased query (the code matches against the
trimmed query). -/
theorem c5_counterexample :
    2 < (autocomplete " a ".toList 2 [listingAAA]).length ∧
    ∃ s ∈ autocomplete " a ".toList 2 [listingAAA],
      ¬ (pyLower " a ".toList <:+: pyLower s.text) := by
  decide

/-- C5 (amended): every suggestion returned by autocomplete has
lowercased text containing the lowercased and whitespace-trimmed query,
and since iteration stops only at the end of the listing that reaches the
threshold, the number of returned suggestions is at most max_suggestions
plus the largest per-listing item count (title and sector plus tags)
rather than at most max_suggestions. -/
theorem c5_suggestions_match_and_bounded
    (q : List Char) (maxS : ℕ) (ls : List SListing) :
    (∀ s ∈ autocomplete q maxS ls, pyStrip (pyLower q) <:+: pyLower s.text) ∧
    (autocomplete q maxS ls).length ≤ maxS + maxItemsLen ls := by
  unfold autocomplete
  by_cases hq : pyStrip (pyLower q) = []
  · rw [if_pos hq]; simp
  · rw [if_neg hq]
    cases ls with
    | nil =>
      constructor
      · intro s hs; simp [acScan] at hs
      · simp [acScan]
    | cons l rest =>
      rcases Nat.eq_zero_or_pos maxS with hm | hm
      · subst hm
        simp only [acScan]
        obtain ⟨t, ht, hlen, hmem⟩ :=
          acItems_append (pyStrip (pyLower q)) (categoryOf l) (listingItems l) [] []
        rw [if_pos (Nat.zero_le _)]
        constructor
        · intro s hs
          rw [ht] at hs
          simp only [List.nil_append] at hs
          exact hmem s hs
        · rw [ht]
          simp only [List.nil_append, Nat.zero_add]
          exact hlen.trans (itemsLen_le_maxItemsLen _ l (List.mem_cons_self l rest))
      · have h := acScan_bound (pyStrip (pyLower q)) maxS (maxItemsLen (l :: rest))
          (l :: rest) [] [] (fun l' hl' => itemsLen_le_maxItemsLen _ l' hl')
          (by simp) (by simpa using hm)
        exact ⟨h.2, h.1⟩

/-- C5 witness: the amended statement applied to the three-match listing
with max_suggestions 3. -/
theorem c5_suggestions_match_and_bounded_witness :
    pyStrip (pyLower " a ".toList) <:+: pyLower "aa".toList ∧
    (autocomplete " a ".toList 3 [listingAAA]).length ≤ 3 + maxItemsLen [listingAAA] :=
  ⟨(c5_suggestions_match_and_bounded " a ".toList 3 [listingAAA]).1
      ⟨"aa".toList, FieldT.title, "ab".toList⟩ (by decide),
   (c5_suggestions_match_and_bounded " a ".toList 3 [listingAAA]).2⟩

/-- The recommendation candidate loop, under in-range FAISS indices and
aligned score rows, never raises, and only collects candidates from a row
other than the source whose sector (under the filter) equals the
source's. -/
theorem recLoop_spec (listings : List SListing) (idx : ℕ) (base : SListing)
    (topN : ℕ) (scs : List ℚ) :
    ∀ (ids : List ℤ) (pos : ℕ) (acc : List RecResult),
      (∀ c ∈ ids, 0 ≤ c ∧ c < (listings.length : ℤ)) →
      scs.length = pos + ids.length →
      (∀ r ∈ acc, r.listing.sector = base.sector ∧
        ∃ c : ℕ, c < listings.length ∧ c ≠ idx ∧ listings.get? c = some r.listing) →
      ∃ rs, recLoop listings idx base topN true scs pos ids acc = Except.ok rs ∧
        ∀ r ∈ rs, r.listing.sector = base.sector ∧
          ∃ c : ℕ, c < listings.length ∧ c ≠ idx ∧ listings.get? c = some r.listing := by
  intro ids
  induction ids with
  | nil =>
    intro pos acc _ _ hQ
    exact ⟨acc, rfl, hQ⟩
  | cons c rest ih =>
    intro pos acc hin hlen hQ
    have hc := hin c (List.mem_cons_self _ _)
    simp only [recLoop]
    by_cases hceq : c = (idx : ℤ)
    · rw [if_pos hceq]
      refine ih (pos + 1) acc (fun c' h => hin c' (List.mem_cons_of_mem _ h)) ?_ hQ
      simp only [List.length_cons] at hlen
      omega
    · rw [if_neg hceq]
      have h0 : (0 : ℤ) ≤ c := hc.1
      have hnat : c.toNat < listings.length := by omega
      have hget : pyGet listings c = listings.get? c.toNat := by
        unfold pyGet
        rw [if_pos h0]
      obtain ⟨cand, hcand⟩ : ∃ cand, listings.get? c.toNat = some cand := by
        rw [List.get?_eq_get hnat]
        exact ⟨_, rfl⟩
      rw [hget, hcand]
      dsimp only
      have hQcand : ∃ cn : ℕ, cn < listings.length ∧ cn ≠ idx ∧
          listings.get? cn = some cand := by
        refine ⟨c.toNat, hnat, ?_, hcand⟩
        intro heq
        apply hceq
        rw [← Int.toNat_of_nonneg h0, heq]
      by_cases hsec : cand.sector = base.sector
      · rw [if_neg (by simp [hsec])]
        have hpos : pos < scs.length := by
          simp only [List.length_cons] at hlen
          omega
        obtain ⟨sc, hsc⟩ : ∃ sc, scs.get? pos = some sc := by
          rw [List.get?_eq_get hpos]
          exact ⟨_, rfl⟩
        rw [hsc]
        dsimp only
        have hQ' : ∀ r ∈ acc ++ [⟨cand, sc⟩], r.listing.sector = base.sector ∧
            ∃ cn : ℕ, cn < listings.length ∧ cn ≠ idx ∧
              listings.get? cn = some r.listing := by
          intro r hr
          rcases List.mem_append.mp hr with h | h
          · exact hQ r h
          · rcases List.mem_singleton.mp h with rfl
            exact ⟨hsec, hQcand⟩
        by_cases hfull : topN ≤ (acc ++ [(⟨cand, sc⟩ : RecResult)]).length
        · rw [if_pos hfull]
          exact ⟨acc ++ [⟨cand, sc⟩], rfl, hQ'⟩
        · rw [if_neg hfull]
          refine ih (pos + 1) (acc ++ [⟨cand, sc⟩])
            (fun c' h => hin c' (List.mem_cons_of_mem _ h)) ?_ hQ'
          simp only [List.length_cons] at hlen
          omega
      · rw [if_pos (by simp [hsec])]
        refine ih (pos + 1) acc (fun c' h => hin c' (List.mem_cons_of_mem _ h)) ?_ hQ
        simp only [List.length_cons] at hlen
        omega

/-- C6 counterexample: when candidates are exhausted — the corpus has
only 2 rows while `top_n + 10 = 15` are requested — FAISS pads its
answer with index -1, and Python's negative indexing makes
`self.listings[-1]` wrap to the last listing; looking up the last
listing (id 20, row 1) therefore returns the source listing itself,
repeated four times, contradicting the claim that the source is never
included. -/
theorem c6_counterexample :
    getRecommendations recOraclePadded recListings 20 5 true =
      Except.ok
        [ ⟨⟨some 10, some "a".toList, some "S".toList, []⟩, 2⟩
        , ⟨⟨some 20, some "b".toList, some "S".toList, []⟩, 3⟩
        , ⟨⟨some 20, some "b".toList, some "S".toList, []⟩, 3⟩
        , ⟨⟨some 20, some "b".toList, some "S".toList, []⟩, 3⟩
        , ⟨⟨some 20, some "b".toList, some "S".toList, []⟩, 3⟩ ] ∧
    recListings.get? 1 = some ⟨some 20, some "b".toList, some "S".toList, []⟩ ∧
    findIdxById recListings 20 = some 1 := by
  exact ⟨rfl, rfl, rfl⟩

/-- C6 (amended): get_recommendations fails with the not-found error
exactly when the listing id is absent, and when it is present it never
raises, returning fewer than top_n results when candidates run out;
provided the vector-index collaborator returns only in-range row indices
with an aligned score row, the source row is never among the results and
every returned listing's sector equals the source listing's sector —
but when candidates are exhausted FAISS pads with -1 indices, which
Python's negative indexing wraps to the last listing, so the source
listing itself can then be returned (see the counterexample). -/
theorem c6_recommendations_filter :
    (∀ (o : RecOracle) (listings : List SListing) (lid : ℤ) (topN : ℕ),
        findIdxById listings lid = none →
        getRecommendations o listings lid topN true = Except.error PErr.notFound) ∧
    (∀ (o : RecOracle) (listings : List SListing) (lid : ℤ) (topN : ℕ)
        (scs : List ℚ) (ids : List ℤ) (idx : ℕ) (base : SListing),
        findIdxById listings lid = some idx →
        listings.get? idx = some base →
        o.recSearch idx (topN + 10) = Except.ok (scs, ids) →
        scs.length = ids.length →
        (∀ c ∈ ids, 0 ≤ c ∧ c < (listings.length : ℤ)) →
        ∃ rs, getRecommendations o listings lid topN true = Except.ok rs ∧
          ∀ r ∈ rs, r.listing.sector = base.sector ∧
            ∃ c : ℕ, c < listings.length ∧ c ≠ idx ∧
              listings.get? c = some r.listing) := by
  constructor
  · intro o listings lid topN h
    simp [getRecommendations, h]
  · intro o listings lid topN scs ids idx base hfind hbase hsearch hlen hin
    obtain ⟨rs, hloop, hQ⟩ :=
      recLoop_spec listings idx base topN scs ids 0 [] hin (by omega) (by simp)
    refine ⟨rs, ?_, hQ⟩
    have hrc : recCore o listings idx topN true = Except.ok rs := by
      unfold recCore
      rw [hsearch, hbase]
      exact hloop
    simp [getRecommendations, hfind, hrc]

/-- C6 witness: the theorem applied to a two-listing same-sector corpus,
looking up id 10 (row 0) with in-range FAISS candidates [0, 1]. -/
theorem c6_recommendations_filter_witness :
    ∃ rs, getRecommendations recOracleOk recListings 10 5 true = Except.ok rs ∧
      ∀ r ∈ rs, r.listing.sector = (⟨some 10, some "a".toList, some "S".toList, []⟩ : SListing).sector ∧
        ∃ c : ℕ, c < recListings.length ∧ c ≠ 0 ∧
          recListings.get? c = some r.listing :=
  c6_recommendations_filter.2 recOracleOk recListings 10 5 [1, 2] [0, 1] 0
    ⟨some 10, some "a".toList, some "S".toList, []⟩ rfl rfl rfl rfl (by decide)

/-- The `_next_id` fold never goes below its starting maximum. -/
theorem foldl_nextIdStep_ge_init :
    ∀ (ls : List JDict) (m0 : ℤ), m0 ≤ ls.foldl nextIdStep m0 := by
  intro ls
  induction ls with
  | nil => intro m0; exact le_refl m0
  | cons a rest ih =>
    intro m0
    rw [List.foldl_cons]
    refine le_trans ?_ (ih (nextIdStep m0 a))
    unfold nextIdStep
    cases pyToInt ((dGet a "id").getD (JVal.i 0)) with
    | none => exact le_refl m0
    | some z => exact le_max_left m0 z

/-- The `_next_id` fold dominates every coercible id in the collection. -/
theorem foldl_nextIdStep_ge_mem :
    ∀ (ls : List JDict) (m0 : ℤ) (d : JDict), d ∈ ls →
      ∀ z, pyToInt ((dGet d "id").getD (JVal.i 0)) = some z →
        z ≤ ls.foldl nextIdStep m0 := by
  intro ls
  induction ls with
  | nil => intro m0 d hd; exact absurd hd (List.not_mem_nil d)
  | cons a rest ih =>
    intro m0 d hd z hz
    rw [List.foldl_cons]
    rcases List.mem_cons.mp hd with rfl | hd'
    · refine le_trans ?_ (foldl_nextIdStep_ge_init rest (nextIdStep m0 d))
      unfold nextIdStep
      rw [hz]
      exact le_max_right m0 z
    · exact ih (nextIdStep m0 a) d hd' z hz

/-- C7 counterexample: with a listing of id 0 already stored, adding a
listing that explicitly carries id 0 is not rejected: the code treats an
explicit id equal to 0 (like None or "") as unsupplied, auto-assigns
id 1 and appends the listing. -/
theorem c7_counterexample :
    dGet newListing0 "id" = some (JVal.i 0) ∧
    dstateWith0.listings.map (fun d => dGet d "id") = [some (JVal.i 0)] ∧
    (addListing dstateWith0 newListing0).2 =
      Except.ok (dSet newListing0 "id" (JVal.i 1)) := by
  exact ⟨rfl, rfl, rfl⟩

/-- C7 (amended): add_listing rejects a listing whose title or sector is
empty after trimming, without touching the state; an id that is missing
or Python-equal to None, "" or 0 is treated as unsupplied and replaced by
one plus the maximum of 0 and the integer-coercible identifiers in the
collection (so the assigned id exceeds every coercible existing id and is
at least 1); any other explicit id whose string form is already taken is
rejected with a validation error; a tags value that is present, non-null
and not a list is rejected with a validation error; and on the successful
no-explicit-id path with valid tags the listing is appended, the file
payload is persisted in the remembered shape, and the hash and metadata
are refreshed from the new contents. -/
theorem c7_add_listing_validation :
    (∀ (st : DState) (l : JDict),
        (pyStrip (pyStr ((dGet l "title").getD (JVal.s []))) = [] ∨
         pyStrip (pyStr ((dGet l "sector").getD (JVal.s []))) = []) →
        addListing st l = (st, Except.error ())) ∧
    (∀ ls : List JDict, 1 ≤ nextId ls ∧
        ∀ d ∈ ls, ∀ z, pyToInt ((dGet d "id").getD (JVal.i 0)) = some z →
          z < nextId ls) ∧
    (∀ (st : DState) (l : JDict) (v : JVal),
        pyStrip (pyStr ((dGet l "title").getD (JVal.s []))) ≠ [] →
        pyStrip (pyStr ((dGet l "sector").getD (JVal.s []))) ≠ [] →
        dGet l "id" = some v →
        isUnsetId v = false →
        pyStr v ∈ st.listings.map (fun d => pyStr ((dGet d "id").getD JVal.nul)) →
        addListing st l = (st, Except.error ())) ∧
    (∀ (st : DState) (l : JDict) (t : JVal),
        pyStrip (pyStr ((dGet l "title").getD (JVal.s []))) ≠ [] →
        pyStrip (pyStr ((dGet l "sector").getD (JVal.s []))) ≠ [] →
        dGet l "id" = none →
        dGet (dSet l "id" (JVal.i (nextId st.listings))) "tags" = some t →
        t ≠ JVal.nul →
        isArr t = false →
        addListing st l = (st, Except.error ())) ∧
    (∀ (st : DState) (l : JDict),
        pyStrip (pyStr ((dGet l "title").getD (JVal.s []))) ≠ [] →
        pyStrip (pyStr ((dGet l "sector").getD (JVal.s []))) ≠ [] →
        dGet l "id" = none →
        (∃ tl, dGet (dSet l "id" (JVal.i (nextId st.listings))) "tags" = some (JVal.arr tl)) ∨
          dGet (dSet l "id" (JVal.i (nextId st.listings))) "tags" = none →
        (∃ m, extractMetadata
            (st.listings ++ [dSet l "id" (JVal.i (nextId st.listings))]) = some m) →
        (addListing st l).2 =
            Except.ok (dSet l "id" (JVal.i (nextId st.listings))) ∧
          (addListing st l).1.listings =
            st.listings ++ [dSet l "id" (JVal.i (nextId st.listings))] ∧
          (addListing st l).1.fileContents =
            some (st.wrappedFmt, st.listings ++ [dSet l "id" (JVal.i (nextId st.listings))]) ∧
          (addListing st l).1.dataHash =
            some (st.wrappedFmt, st.listings ++ [dSet l "id" (JVal.i (nextId st.listings))]) ∧
          some ((addListing st l).1.sectors, (addListing st l).1.tagSet,
              (addListing st l).1.locations) =
            extractMetadata
              (st.listings ++ [dSet l "id" (JVal.i (nextId st.listings))])) := by
  refine ⟨?_, ?_, ?_, ?_, ?_⟩
  · intro st l h
    unfold addListing
    rw [if_pos h]
  · intro ls
    constructor
    · unfold nextId
      have := foldl_nextIdStep_ge_init ls 0
      omega
    · intro d hd z hz
      unfold nextId
      have := foldl_nextIdStep_ge_mem ls 0 d hd z hz
      omega
  · intro st l v ht hs hv hunset hmem
    unfold addListing
    rw [if_neg (by push_neg; exact ⟨ht, hs⟩), hv]
    dsimp only
    rw [if_neg (by simp [hunset]), if_pos hmem]
  · intro st l t ht hs hid htag hnul harr
    unfold addListing
    rw [if_neg (by push_neg; exact ⟨ht, hs⟩), hid]
    dsimp only
    unfold addListingFinish
    rw [htag]
    dsimp only
    rw [if_pos ⟨hnul, harr⟩]
  · intro st l ht hs hid htags hmeta
    obtain ⟨⟨se, ta, lo⟩, hm⟩ := hmeta
    have hbody : addListing st l =
        addListingFinish st (dSet l "id" (JVal.i (nextId st.listings))) := by
      unfold addListing
      rw [if_neg (by push_neg; exact ⟨ht, hs⟩), hid]
    have hfin : addListingFinish st (dSet l "id" (JVal.i (nextId st.listings))) =
        ({ listings := st.listings ++ [dSet l "id" (JVal.i (nextId st.listings))]
         , wrappedFmt := st.wrappedFmt
         , fileContents := some (st.wrappedFmt,
             st.listings ++ [dSet l "id" (JVal.i (nextId st.listings))])
         , dataHash := some (st.wrappedFmt,
             st.listings ++ [dSet l "id" (JVal.i (nextId st.listings))])
         , sectors := se, tagSet := ta, locations := lo },
         Except.ok (dSet l "id" (JVal.i (nextId st.listings)))) := by
      unfold addListingFinish
      rcases htags with ⟨tl, htl⟩ | htl
      · rw [htl]
        dsimp only
        rw [if_neg (by simp [isArr])]
        unfold persist
        dsimp only
        rw [hm]
        rfl
      · rw [htl]
        dsimp only
        unfold persist
        dsimp only
        rw [hm]
        rfl
    rw [hbody, hfin]
    exact ⟨rfl, rfl, rfl, rfl, by rw [hm]⟩

/-- C7 witness: adding a listing without an id to an empty collection
assigns id 1, appends, persists and refreshes hash and metadata. -/
theorem c7_add_listing_validation_witness :
    (addListing dstateEmpty newListingNoId).2 =
        Except.ok (dSet newListingNoId "id" (JVal.i (nextId dstateEmpty.listings))) ∧
      (addListing dstateEmpty newListingNoId).1.listings =
        dstateEmpty.listings ++ [dSet newListingNoId "id" (JVal.i (nextId dstateEmpty.listings))] ∧
      (addListing dstateEmpty newListingNoId).1.fileContents =
        some (dstateEmpty.wrappedFmt,
          dstateEmpty.listings ++ [dSet newListingNoId "id" (JVal.i (nextId dstateEmpty.listings))]) ∧
      (addListing dstateEmpty newListingNoId).1.dataHash =
        some (dstateEmpty.wrappedFmt,
          dstateEmpty.listings ++ [dSet newListingNoId "id" (JVal.i (nextId dstateEmpty.listings))]) ∧
      some ((addListing dstateEmpty newListingNoId).1.sectors,
          (addListing dstateEmpty newListingNoId).1.tagSet,
          (addListing dstateEmpty newListingNoId).1.locations) =
        extractMetadata
          (dstateEmpty.listings ++
            [dSet newListingNoId "id" (JVal.i (nextId dstateEmpty.listings))]) :=
  c7_add_listing_validation.2.2.2.2 dstateEmpty newListingNoId
    (by decide) (by decide) rfl (Or.inr rfl) ⟨_, rfl⟩

end SemSearch
